import Mathlib

/-!
# Verification of the hybrid movie recommendation engine

A shallow embedding of `backend/ml/recommender.py` (class `MovieRecommender`).
Database rows become lists of records, SQL queries become list filters, and the
imperative loops become folds.  Floating-point ratings and scores are modelled
as rationals.  The two numeric computations that have no rational semantics —
the seeded `TruncatedSVD` factorization and the cosine-similarity kernel — are
taken as explicit function parameters of the definitions that use them; every
theorem quantifies over them, and no theorem depends on their values.
-/

namespace MovieRec

/-- The `genres` JSON column of a movie.  `missing` is SQL NULL or an empty
list (both falsy in Python), `unparsable` is a non-empty string that
`json.loads` rejects, `parsed` is a decoded list of genre names. -/
inductive GenreField where
  | missing
  | unparsable
  | parsed (gs : List String)
deriving DecidableEq, Repr

/-- The `genre_preferences` JSON column of a user: absent, an unparsable
non-empty string, or a decoded mapping genre name → signed score. -/
inductive PrefField where
  | missing
  | unparsable
  | parsed (prefs : List (String × Int))
deriving DecidableEq, Repr

/-- Python truthiness of the genres field: `None` and `[]` are falsy. -/
def GenreField.truthy : GenreField → Bool
  | .missing => false
  | .unparsable => true
  | .parsed gs => !gs.isEmpty

/-- Python truthiness of the preferences field: `None` and the empty dict are
falsy. -/
def PrefField.truthy : PrefField → Bool
  | .missing => false
  | .unparsable => true
  | .parsed l => !l.isEmpty

/-- A row of the `movies` table (the columns the recommender reads). -/
structure Movie where
  id : Nat
  genres : GenreField
  vote_count : Nat
  vote_average : ℚ
  popularity : ℚ
  runtime : Option Nat
deriving DecidableEq, Repr

/-- A row of the `users` table (the columns the recommender reads). -/
structure UserRow where
  id : Nat
  age : Option Nat
  location : Option String
  genre_preferences : PrefField
deriving DecidableEq, Repr

/-- A row of the `ratings` table.  Timestamps are abstract ticks. -/
structure RatingRow where
  user_id : Nat
  movie_id : Nat
  rating : ℚ
  timestamp : Nat
deriving DecidableEq, Repr

/-- A row of the `favorites` table. -/
structure FavoriteRow where
  user_id : Nat
  movie_id : Nat
deriving DecidableEq, Repr

/-- A row of the `watchlist` table. -/
structure WatchlistRow where
  user_id : Nat
  movie_id : Nat
deriving DecidableEq, Repr

/-- A row of the `model_update_logs` table (audit trail of model rebuilds).
The JSON `metrics` blob and the wall-clock duration are not modelled; no
claim mentions their values. -/
structure ModelUpdateLogRow where
  model_type : String
  update_type : String
  ratings_processed : Nat
  update_trigger : String
  success : Bool
  created_at : Nat
deriving DecidableEq, Repr

/-- The relational store seen by the recommender.  List order is the
iteration order the database returns for an unordered query. -/
structure DB where
  movies : List Movie
  users : List UserRow
  ratings : List RatingRow
  favorites : List FavoriteRow
  watchlist : List WatchlistRow
  model_update_logs : List ModelUpdateLogRow
deriving DecidableEq, Repr

/-- Wall-clock context of a request: `datetime.now()` reduced to the two
fields the engine reads (`hour`, `weekday()` with Monday = 0). -/
structure Clock where
  hour : Nat
  weekday : Nat
deriving DecidableEq, Repr

/-! ## Stable sorting

Python's `list.sort(key=..., reverse=True)` and pandas/SQL descending sorts
are modelled by a stable insertion sort: an element is placed after every
earlier element with a strictly larger key and before every element with a
key no larger, so elements with equal keys keep their original order. -/

/-- Insert `x` into a descending-sorted list, after strictly larger keys. -/
def insertKeyDesc {α β : Type} [LinearOrder β] (key : α → β) (x : α) :
    List α → List α
  | [] => [x]
  | y :: ys => if key x < key y then y :: insertKeyDesc key x ys else x :: y :: ys

/-- Stable sort, descending by `key`. -/
def sortKeyDesc {α β : Type} [LinearOrder β] (key : α → β) : List α → List α
  | [] => []
  | x :: xs => insertKeyDesc key x (sortKeyDesc key xs)

theorem insertKeyDesc_perm {α β : Type} [LinearOrder β] (key : α → β) (x : α)
    (l : List α) : (insertKeyDesc key x l).Perm (x :: l) := by
  induction l with
  | nil => simp [insertKeyDesc]
  | cons y ys ih =>
    simp only [insertKeyDesc]
    split
    · exact (ih.cons y).trans (List.Perm.swap x y ys)
    · exact List.Perm.refl _

theorem sortKeyDesc_perm {α β : Type} [LinearOrder β] (key : α → β)
    (l : List α) : (sortKeyDesc key l).Perm l := by
  induction l with
  | nil => exact List.Perm.refl _
  | cons x xs ih =>
    exact (insertKeyDesc_perm key x (sortKeyDesc key xs)).trans (ih.cons x)

/-- Update an association list at key `k` with `f`, inserting `d` at the end
when the key is absent — the update discipline of a Python `dict` /
`defaultdict`, which keeps first-touch insertion order. -/
def updateAssoc {κ β : Type} [BEq κ] (k : κ) (f : β → β) (d : β) :
    List (κ × β) → List (κ × β)
  | [] => [(k, d)]
  | (k', v) :: rest =>
    if k' == k then (k', f v) :: rest else (k', v) :: updateAssoc k f d rest

/-! ## Interaction queries and simple classifiers -/

/-- `_get_excluded_movie_ids`: ids of movies the user rated 2 stars or less. -/
def get_excluded_movie_ids (db : DB) (user_id : Nat) : List Nat :=
  (db.ratings.filter (fun r => r.user_id == user_id && decide (r.rating ≤ 2))).map
    (·.movie_id)

/-- `db.query(User).filter(User.id == user_id).first()`. -/
def findUser (db : DB) (user_id : Nat) : Option UserRow :=
  db.users.find? (fun u => u.id == user_id)

/-- `_get_popular_movies`: movies with at least 100 votes the user has not
interacted with, in descending `vote_average` order, limited to `n`.
(`if exclude_user_id:` is Python truthiness, hence the id-0 special case.) -/
def get_popular_movies (db : DB) (n : Nat) (exclude_user_id : Option Nat) :
    List Movie :=
  let base := db.movies.filter (fun m => decide (100 ≤ m.vote_count))
  let filtered :=
    match exclude_user_id with
    | none => base
    | some uid =>
      if uid == 0 then base
      else
        let seen :=
          (db.ratings.filter (fun r => r.user_id == uid)).map (·.movie_id)
          ++ (db.favorites.filter (fun f => f.user_id == uid)).map (·.movie_id)
          ++ (db.watchlist.filter (fun w => w.user_id == uid)).map (·.movie_id)
          ++ get_excluded_movie_ids db uid
        if seen.isEmpty then base
        else base.filter (fun m => !seen.contains m.id)
  (sortKeyDesc (fun m => m.vote_average) filtered).take n

/-- `_is_cold_start_user`: total interaction count below the fixed
cold-start threshold 3. -/
def is_cold_start_user (db : DB) (user_id : Nat) : Bool :=
  let ratings_count := (db.ratings.filter (fun r => r.user_id == user_id)).length
  let favorites_count := (db.favorites.filter (fun f => f.user_id == user_id)).length
  let watchlist_count := (db.watchlist.filter (fun w => w.user_id == user_id)).length
  decide (ratings_count + favorites_count + watchlist_count < 3)

/-! ## Cold-path candidate generators -/

/-- `get_genre_based_recommendations`: scores the well-voted catalog by
overlap with the user's positively scored genres. -/
def get_genre_based_recommendations (db : DB) (user_id n : Nat) : List Movie :=
  match findUser db user_id with
  | none => get_popular_movies db n (some user_id)
  | some user =>
    match user.genre_preferences with
    | .parsed prefs =>
      if prefs.isEmpty then get_popular_movies db n (some user_id)
      else
        let preferred := (prefs.filter (fun p => decide (0 < p.2))).map (·.1)
        if preferred.isEmpty then get_popular_movies db n (some user_id)
        else
          let excluded := get_excluded_movie_ids db user_id
          let all_movies := db.movies.filter (fun m => decide (50 ≤ m.vote_count))
          let scored := all_movies.filterMap (fun m =>
            if excluded.contains m.id then none
            else
              match m.genres with
              | .parsed gs =>
                let overlap :=
                  (gs.dedup.filter (fun g => preferred.contains g)).length
                if 0 < overlap then
                  some (m, (overlap : ℚ) * 3 + m.vote_average + m.popularity / 100)
                else none
              | _ => none)
          ((sortKeyDesc (fun p => p.2) scored).take n).map (·.1)
    | _ => get_popular_movies db n (some user_id)

/-- Running (count, total) statistics per movie id, in first-touch order —
the `defaultdict` of `get_demographic_recommendations`. -/
def bumpStat (acc : List (Nat × Nat × ℚ)) (movie_id : Nat) (rating : ℚ) :
    List (Nat × Nat × ℚ) :=
  updateAssoc movie_id (fun s => (s.1 + 1, s.2 + rating)) (1, rating) acc

/-- `get_demographic_recommendations`: high ratings of users in the same age
band / location, scored by frequency times average rating. -/
def get_demographic_recommendations (db : DB) (user_id n : Nat) : List Movie :=
  match findUser db user_id with
  | none => get_popular_movies db n (some user_id)
  | some user =>
    let candidates := db.users.filter (fun u =>
      u.id != user_id
      && (match user.age with
          | some a =>
            if a == 0 then true
            else
              match u.age with
              | some b => decide ((a : Int) - 5 ≤ (b : Int) ∧ (b : Int) ≤ (a : Int) + 5)
              | none => false
          | none => true)
      && (match user.location with
          | some loc => if loc == "" then true else u.location == some loc
          | none => true))
    let similar_users := candidates.take 20
    if similar_users.isEmpty then get_popular_movies db n (some user_id)
    else
      let similar_ids := similar_users.map (·.id)
      let top_rated := db.ratings.filter (fun r =>
        similar_ids.contains r.user_id && decide (4 ≤ r.rating))
      let stats := top_rated.foldl (fun acc r => bumpStat acc r.movie_id r.rating) []
      let excluded := get_excluded_movie_ids db user_id
      let scored := stats.filterMap (fun s =>
        if excluded.contains s.1 then none
        else
          let avg := s.2.2 / (s.2.1 : ℚ)
          some (s.1, (s.2.1 : ℚ) * avg))
      let top_movie_ids := ((sortKeyDesc (fun p => p.2) scored).take n).map (·.1)
      let movies := db.movies.filter (fun m => top_movie_ids.contains m.id)
      if movies.isEmpty then get_popular_movies db n (some user_id)
      else top_movie_ids.filterMap (fun mid => movies.find? (fun m => m.id == mid))

/-- `get_content_based_recommendations`: a weighted genre-affinity profile
from liked ratings (1.0), favorites (0.8) and watchlist (0.5); the top three
genres score the well-voted catalog by overlap and rating. -/
def get_content_based_recommendations (db : DB) (user_id n : Nat) : List Movie :=
  let user_ratings := db.ratings.filter (fun r => r.user_id == user_id)
  let user_favorites := db.favorites.filter (fun f => f.user_id == user_id)
  let user_watchlist := db.watchlist.filter (fun w => w.user_id == user_id)
  let liked0 : List (Nat × ℚ) :=
    (user_ratings.filter (fun r => decide (4 ≤ r.rating))).map (fun r => (r.movie_id, 1))
  let liked1 := user_favorites.foldl (fun acc f =>
    if acc.any (fun p => p.1 == f.movie_id) then acc else acc ++ [(f.movie_id, 4/5)]) liked0
  let liked := user_watchlist.foldl (fun acc w =>
    if acc.any (fun p => p.1 == w.movie_id) then acc else acc ++ [(w.movie_id, 1/2)]) liked1
  if liked.isEmpty then get_popular_movies db n (some user_id)
  else
    let movie_ids := liked.map (·.1)
    let liked_movies := db.movies.filter (fun m => movie_ids.contains m.id)
    let genre_scores := liked_movies.foldl (fun acc m =>
      match liked.find? (fun p => p.1 == m.id) with
      | none => acc
      | some p =>
        if m.genres.truthy then
          match m.genres with
          | .parsed gs => gs.foldl (fun acc2 g => updateAssoc g (· + p.2) p.2 acc2) acc
          | _ => acc
        else acc) []
    let top_genre_names := ((sortKeyDesc (fun p => p.2) genre_scores).take 3).map (·.1)
    if top_genre_names.isEmpty then get_popular_movies db n (some user_id)
    else
      let excluded := get_excluded_movie_ids db user_id
      let all_movies := db.movies.filter (fun m => decide (50 ≤ m.vote_count))
      let seen := movie_ids ++ user_ratings.map (·.movie_id)
      let recs := all_movies.filterMap (fun m =>
        if !seen.contains m.id && !excluded.contains m.id then
          match m.genres with
          | .parsed gs =>
            let overlap :=
              (gs.dedup.filter (fun g => top_genre_names.contains g)).length
            if 0 < overlap then some (m, (overlap : ℚ) * 2 + m.vote_average / 2)
            else none
          | _ => none
        else none)
      ((sortKeyDesc (fun p => p.2) recs).take n).map (·.1)

/-! ## Context extraction and the two re-ranking passes -/

/-- The context record built by `_get_contextual_features`. -/
structure Context where
  time_period : String
  is_weekend : Bool
  recent_genres : List String
  genre_saturation : List (String × ℚ)
  sequential_patterns : List Nat
deriving DecidableEq, Repr

/-- `_get_time_period`: bucket an hour of the day. -/
def get_time_period (hour : Nat) : String :=
  if 5 ≤ hour ∧ hour < 12 then "morning"
  else if 12 ≤ hour ∧ hour < 17 then "afternoon"
  else if 17 ≤ hour ∧ hour < 21 then "evening"
  else "night"

/-- `_get_contextual_features`: temporal bucket plus recent-genre set and
per-genre saturation over the user's ten most recent ratings.
`recent_genres` is a Python set, modelled as a duplicate-free list in
first-insertion order. -/
def get_contextual_features (db : DB) (clock : Clock) (user_id : Nat) : Context :=
  let time_period := get_time_period clock.hour
  let is_weekend := decide (5 ≤ clock.weekday)
  let recent_ratings :=
    (sortKeyDesc (fun r => r.timestamp)
      (db.ratings.filter (fun r => r.user_id == user_id))).take 10
  if recent_ratings.isEmpty then
    ⟨time_period, is_weekend, [], [], []⟩
  else
    let sequential_patterns := (recent_ratings.take 5).map (·.movie_id)
    let recent_movie_ids := recent_ratings.map (·.movie_id)
    let recent_movies := db.movies.filter (fun m => recent_movie_ids.contains m.id)
    let step := fun (acc : List String × List (String × Nat)) (m : Movie) =>
      if m.genres.truthy then
        match m.genres with
        | .parsed gs =>
          gs.foldl (fun a g =>
            (if a.1.contains g then a.1 else a.1 ++ [g],
             updateAssoc g (· + 1) 1 a.2)) acc
        | _ => acc
      else acc
    let collected := recent_movies.foldl step ([], [])
    let total_recent := recent_movies.length
    let genre_saturation :=
      if 0 < total_recent then
        collected.2.map (fun p => (p.1, (p.2 : ℚ) / (total_recent : ℚ)))
      else []
    ⟨time_period, is_weekend, collected.1, genre_saturation, sequential_patterns⟩

/-- `_apply_diversity_boost`: score each candidate by how many of its genres
are absent from recent history, penalised by saturation, then stable-sort
descending.  Returns the input unchanged when `recent_genres` is empty. -/
def apply_diversity_boost (movies : List Movie) (ctx : Context)
    (boost_factor : ℚ := 13/10) : List Movie :=
  if ctx.recent_genres.isEmpty then movies
  else
    let movie_scores := movies.map (fun m =>
      let diversity_score : ℚ :=
        if m.genres.truthy then
          match m.genres with
          | .parsed gs =>
            let movie_genre_set := gs.dedup
            let new_genres :=
              movie_genre_set.filter (fun g => !ctx.recent_genres.contains g)
            let base := (new_genres.length : ℚ) * boost_factor
            let penalty := movie_genre_set.foldl (fun acc g =>
              match ctx.genre_saturation.find? (fun p => p.1 == g) with
              | some p => acc + p.2 * (1/2)
              | none => acc) 0
            let bonus : ℚ := if 0 < new_genres.length then 1 else 0
            base - penalty + bonus
          | _ => 0
        else 0
      (m, diversity_score))
    ((sortKeyDesc (fun p => p.2) movie_scores).map (·.1))

/-- The fixed time-of-day genre-preference table of `_apply_temporal_filtering`
(`dict.get` returns `[]` for an unknown bucket). -/
def timeGenrePreferences (tp : String) : List String :=
  if tp == "morning" then ["Animation", "Family", "Comedy", "Adventure"]
  else if tp == "afternoon" then ["Action", "Adventure", "Comedy", "Science Fiction"]
  else if tp == "evening" then ["Drama", "Thriller", "Mystery", "Crime"]
  else if tp == "night" then ["Horror", "Thriller", "Mystery", "Science Fiction"]
  else []

/-- `_apply_temporal_filtering`: score each candidate against the
time-of-day and weekend genre tables plus a runtime bonus, then stable-sort
descending.  (`if movie.runtime:` is Python truthiness, hence the 0 case.) -/
def apply_temporal_filtering (movies : List Movie) (ctx : Context) : List Movie :=
  let time_preferences := timeGenrePreferences ctx.time_period
  let preferred_genres :=
    if ctx.is_weekend then ["Action", "Adventure", "Science Fiction", "Fantasy", "Drama"]
    else ["Comedy", "Animation", "Romance", "Documentary"]
  let movie_scores := movies.map (fun m =>
    let temporal_score : ℚ :=
      if m.genres.truthy then
        match m.genres with
        | .parsed gs =>
          let genreScore := gs.foldl (fun acc g =>
            acc + (if time_preferences.contains g then (1 : ℚ) else 0)
                + (if preferred_genres.contains g then (1 : ℚ)/2 else 0)) 0
          let runtimeScore : ℚ :=
            match m.runtime with
            | some rt =>
              if rt == 0 then 0
              else if ctx.is_weekend && decide (120 < rt) then 1/2
              else if !ctx.is_weekend && decide (rt ≤ 120) then 3/10
              else 0
            | none => 0
          genreScore + runtimeScore
        | _ => 0
      else 0
    (m, temporal_score))
  ((sortKeyDesc (fun p => p.2) movie_scores).map (·.1))

/-! ## The disliked-genre filter -/

/-- The per-movie keep decision inside `_filter_disliked_genres`: a movie is
dropped only when its genre list parses and intersects the disliked set. -/
def keepMovieSrc (disliked : List String) (m : Movie) : Bool :=
  if m.genres.truthy then
    match m.genres with
    | .parsed gs => gs.all (fun g => !disliked.contains g)
    | _ => true
  else true

/-- `_filter_disliked_genres`: drop movies carrying a negatively scored
genre, unless that would empty the list, in which case the original list is
returned. -/
def filter_disliked_genres (db : DB) (movies : List Movie) (user_id : Nat) :
    List Movie :=
  match findUser db user_id with
  | none => movies
  | some user =>
    match user.genre_preferences with
    | .parsed prefs =>
      if prefs.isEmpty then movies
      else
        let disliked := (prefs.filter (fun p => decide (p.2 < 0))).map (·.1)
        if disliked.isEmpty then movies
        else
          let filtered := movies.filter (keepMovieSrc disliked)
          if filtered.isEmpty then movies else filtered
    | _ => movies

/-- **Spec-side** (§4.5b wording): the user's negatively scored genres; the
empty set when the profile or the preference mapping is absent or unusable. -/
def dislikedGenres (db : DB) (user_id : Nat) : List String :=
  match findUser db user_id with
  | some user =>
    match user.genre_preferences with
    | .parsed prefs => (prefs.filter (fun p => decide (p.2 < 0))).map (·.1)
    | _ => []
  | none => []

/-- **Spec-side** (§4.5b wording): a movie is kept exactly when its genre
data is missing or unparsable, or its genre set does not intersect the
disliked set. -/
def keepMovie (disliked : List String) (m : Movie) : Bool :=
  match m.genres with
  | .parsed gs => gs.all (fun g => !disliked.contains g)
  | _ => true

/-! ## Latent-factor model lifecycle (`_build_svd_model`, cache, predictor)

The numeric factorization (`TruncatedSVD(n_components, random_state=42)`)
and the cosine-similarity kernel of the item-based generator are
floating-point computations with no rational semantics; they enter as
explicit function parameters (`Factorizer`, `Similarity`) and every theorem
below quantifies over them. -/

/-- The cached SVD state: row/column identity indices plus the two factor
matrices produced by the factorization. -/
structure SvdModel where
  user_ids : List Nat
  movie_ids : List Nat
  user_factors : List (List ℚ)
  item_factors : List (List ℚ)

/-- Stands for `TruncatedSVD(n_components=k, random_state=42)` applied to the
dense user×item matrix: returns (user factors, item factors). -/
def Factorizer : Type := List (List ℚ) → Nat → List (List ℚ) × List (List ℚ)

/-- Stands for the cosine-similarity entry between two movie rows of the
item×user rating matrix. -/
def Similarity : Type := Nat → Nat → ℚ

/-- The process-wide mutable recommender state: the cached SVD model
(`self._svd_model` and friends), `none` when invalidated. -/
structure RecState where
  svd : Option SvdModel

/-- Distinct elements in first-occurrence order — the row/column index order
of a pandas DataFrame built from a dict of dicts. -/
def dedupFirst (l : List Nat) : List Nat :=
  l.foldl (fun acc x => if acc.contains x then acc else acc ++ [x]) []

/-- The distinct user ids appearing in the rating table (SVD row index). -/
def svdUserIds (db : DB) : List Nat := dedupFirst (db.ratings.map (·.user_id))

/-- The distinct movie ids appearing in the rating table: the SVD column
index, and equally the row index of the item-similarity matrix. -/
def ratedMovieIds (db : DB) : List Nat := dedupFirst (db.ratings.map (·.movie_id))

/-- One entry of the dense rating matrix: the last written rating for the
pair, `0` when absent (`fillna(0)`). -/
def ratingEntry (db : DB) (u m : Nat) : ℚ :=
  (((db.ratings.filter (fun r => r.user_id == u && r.movie_id == m)).map
    (·.rating)).getLast?).getD 0

/-- Minimum system-wide rating count for an SVD build (`svd_min_ratings`). -/
def svdMinRatings : Nat := 10

/-- Configured latent dimension (`svd_components`). -/
def svdComponents : Nat := 20

/-- `_build_svd_model`: `none` models the boolean `False` return (build
skipped, cache left empty); `some` models `True` with the cache fields set. -/
def build_svd_model (fcz : Factorizer) (db : DB) : Option SvdModel :=
  if db.ratings.length < svdMinRatings then none
  else
    let uids := svdUserIds db
    let mids := ratedMovieIds db
    if uids.length < 2 then none
    else
      let n_components := min svdComponents (min uids.length mids.length - 1)
      if n_components < 2 then none
      else
        let matrix := uids.map (fun u => mids.map (fun m => ratingEntry db u m))
        let factors := fcz matrix n_components
        some ⟨uids, mids, factors.1, factors.2⟩

/-- Dot product of two factor rows. -/
def dotQ (a b : List ℚ) : ℚ := (a.zipWith (· * ·) b).sum

/-- `get_item_based_recommendations`: for each liked movie, accumulate the
similarity of its top-20 most similar other items over unseen candidates. -/
def get_item_based_recommendations (sim : Similarity) (db : DB)
    (user_id n : Nat) : List Movie :=
  let liked_ratings := db.ratings.filter (fun r =>
    r.user_id == user_id && decide (4 ≤ r.rating))
  let liked? :=
    if liked_ratings.isEmpty then
      let favs := db.favorites.filter (fun f => f.user_id == user_id)
      if favs.isEmpty then none else some (favs.map (·.movie_id))
    else some (liked_ratings.map (·.movie_id))
  match liked? with
  | none => get_popular_movies db n (some user_id)
  | some liked_movie_ids =>
    if db.ratings.length < 10 then get_popular_movies db n (some user_id)
    else
      let itemIndex := ratedMovieIds db
      if itemIndex.length < 2 then get_popular_movies db n (some user_id)
      else
        let excluded := get_excluded_movie_ids db user_id
        let seen := liked_movie_ids
        let movie_scores := liked_movie_ids.foldl (fun acc mid =>
          if itemIndex.contains mid then
            let similar := ((sortKeyDesc (fun m2 => sim mid m2) itemIndex).drop 1).take 20
            similar.foldl (fun acc2 m2 =>
              if !seen.contains m2 && !excluded.contains m2 then
                updateAssoc m2 (· + sim mid m2) (sim mid m2) acc2
              else acc2) acc
          else acc) ([] : List (Nat × ℚ))
        let top := ((sortKeyDesc (fun p => p.2) movie_scores).take n).map (·.1)
        let movies := db.movies.filter (fun m => top.contains m.id)
        top.filterMap (fun mid => movies.find? (fun m => m.id == mid))

/-- `get_svd_recommendations`: use the cached model (building it on a cache
miss); fall back to the item-based generator when the build fails or the
user is absent from the trained index; otherwise rank unseen movies by the
dot product of factor rows. -/
def get_svd_recommendations (fcz : Factorizer) (sim : Similarity)
    (st : RecState) (db : DB) (user_id n : Nat) : List Movie :=
  let model? :=
    match st.svd with
    | some m => some m
    | none => build_svd_model fcz db
  match model? with
  | none => get_item_based_recommendations sim db user_id n
  | some model =>
    if !model.user_ids.contains user_id then
      get_item_based_recommendations sim db user_id n
    else
      let user_idx := model.user_ids.indexOf user_id
      let user_factors := model.user_factors.getD user_idx []
      let excluded := get_excluded_movie_ids db user_id
      let seen :=
        (db.ratings.filter (fun r => r.user_id == user_id)).map (·.movie_id)
        ++ (db.favorites.filter (fun f => f.user_id == user_id)).map (·.movie_id)
        ++ (db.watchlist.filter (fun w => w.user_id == user_id)).map (·.movie_id)
        ++ excluded
      let movie_scores := model.movie_ids.enum.filterMap (fun p =>
        if !seen.contains p.2 then
          some (p.2, dotQ user_factors (model.item_factors.getD p.1 []))
        else none)
      let top := ((sortKeyDesc (fun q => q.2) movie_scores).take n).map (·.1)
      let movies := db.movies.filter (fun m => top.contains m.id)
      top.filterMap (fun mid => movies.find? (fun m => m.id == mid))

/-! ## The interaction-strength matrix of `get_user_based_recommendations` -/

/-- Python dict assignment `d[k] = v`: overwrite in place, append when new. -/
def setPair (acc : List ((Nat × Nat) × ℚ)) (k : Nat × Nat) (v : ℚ) :
    List ((Nat × Nat) × ℚ) :=
  updateAssoc k (fun _ => v) v acc

/-- `if k not in d: d[k] = v`. -/
def setPairIfAbsent (acc : List ((Nat × Nat) × ℚ)) (k : Nat × Nat) (v : ℚ) :
    List ((Nat × Nat) × ℚ) :=
  if acc.any (fun e => e.1 == k) then acc else acc ++ [(k, v)]

/-- The weighted user-item strength map built at the top of
`get_user_based_recommendations`: explicit ratings first, then favorites at
4.5 for pairs without a rating, then watchlist entries at 3.5 for pairs
still absent. -/
def build_interaction_strengths (db : DB) : List ((Nat × Nat) × ℚ) :=
  let m1 := db.ratings.foldl
    (fun acc r => setPair acc (r.user_id, r.movie_id) r.rating) []
  let m2 := db.favorites.foldl
    (fun acc f => setPairIfAbsent acc (f.user_id, f.movie_id) (9/2)) m1
  db.watchlist.foldl
    (fun acc w => setPairIfAbsent acc (w.user_id, w.movie_id) (7/2)) m2

/-- The final strength recorded for a (user, movie) pair, if any. -/
def strengthOf (db : DB) (u m : Nat) : Option ℚ :=
  ((build_interaction_strengths db).find? (fun e => e.1 == (u, m))).map (·.2)

/-! ## Hybrid composition (`get_hybrid_recommendations`)

The embeddings branch (`use_embeddings=True`) delegates to the separate
deep-learning subsystem, which the spec places out of scope; the embedding
here covers the default `use_embeddings=False` operation. -/

/-- One fill loop of the composer: append candidates whose id is unseen
while the accumulated list is below `cap`; the state is (picked list, seen
id set). -/
def addCapped (cap : Nat) (src : List Movie) (st : List Movie × List Nat) :
    List Movie × List Nat :=
  src.foldl (fun acc m =>
    if !acc.2.contains m.id && decide (acc.1.length < cap) then
      (acc.1 ++ [m], acc.2 ++ [m.id])
    else acc) st

/-- The first warm slice loop, which checks only novelty (the source has no
length guard on the SVD loop). -/
def addUncapped (src : List Movie) (st : List Movie × List Nat) :
    List Movie × List Nat :=
  src.foldl (fun acc m =>
    if !acc.2.contains m.id then (acc.1 ++ [m], acc.2 ++ [m.id]) else acc) st

/-- The warm weight split.  `int(n*0.6)` and `int(n*0.25)` on IEEE doubles
agree with `3*n/5` and `n/4` for every count below 2^51, which this
embedding uses. -/
def hybridWeights (n : Nat) : Nat × Nat × Nat :=
  let svd_weight := 3 * n / 5
  let item_weight := n / 4
  (svd_weight, item_weight, n - svd_weight - item_weight)

/-- The warm composition before re-ranking: three weighted slices
deduplicated by id in priority order, then a fill pass over all remaining
candidates while the list is short of `n`. -/
def warmCompose (n : Nat) (svd_movies item_movies content_movies : List Movie) :
    List Movie × List Nat :=
  let w := hybridWeights n
  let t1 := addUncapped (svd_movies.take w.1) ([], [])
  let t2 := addCapped n (item_movies.take w.2.1) t1
  let t3 := addCapped n (content_movies.take w.2.2) t2
  if decide (t3.1.length < n) then
    let all_remaining := (svd_movies ++ item_movies ++ content_movies).filter
      (fun m => !t3.2.contains m.id)
    addCapped n all_remaining t3
  else t3

/-- Python truthiness of `user.age or user.location`. -/
def userHasDemographics (u : UserRow) : Bool :=
  (match u.age with | some a => a != 0 | none => false)
  || (match u.location with | some l => l != "" | none => false)

/-- The cold-start fill block of `get_hybrid_recommendations`: genre-based
candidates when preferences exist, then demographic candidates when age or
location exist, then popular movies, each stage deduplicating and respecting
the requested count. -/
def coldCompose (db : DB) (user : Option UserRow) (user_id n_recommendations : Nat) :
    List Movie × List Nat :=
  let s1 :=
    match user with
    | some u =>
      if u.genre_preferences.truthy then
        addCapped n_recommendations
          (get_genre_based_recommendations db user_id n_recommendations) ([], [])
      else ([], [])
    | none => ([], [])
  let s2 :=
    if decide (s1.1.length < n_recommendations)
        && (match user with
            | some u => userHasDemographics u
            | none => false) then
      addCapped n_recommendations
        (get_demographic_recommendations db user_id
          (n_recommendations - s1.1.length)) s1
    else s1
  if decide (s2.1.length < n_recommendations) then
    addCapped n_recommendations
      (get_popular_movies db (n_recommendations - s2.1.length) (some user_id)) s2
  else s2

/-- `get_hybrid_recommendations` (with `use_embeddings=False`): cold-start
branch fills from genre, demographic and popularity sources with
deduplication and a length cap, then temporal re-ranking and the disliked
filter; warm branch composes the three weighted sources, applies temporal
re-ranking then diversity boosting, the disliked filter, and trims to `n`. -/
def get_hybrid_recommendations (fcz : Factorizer) (sim : Similarity)
    (st : RecState) (db : DB) (clock : Clock) (user_id n_recommendations : Nat)
    (use_context : Bool := true) : List Movie :=
  let user := findUser db user_id
  let context := get_contextual_features db clock user_id
  if is_cold_start_user db user_id then
    let recommendations := (coldCompose db user user_id n_recommendations).1
    let reordered :=
      if use_context && decide (0 < recommendations.length) then
        apply_temporal_filtering recommendations context
      else recommendations
    filter_disliked_genres db reordered user_id
  else
    let svd_movies := get_svd_recommendations fcz sim st db user_id n_recommendations
    let item_movies := get_item_based_recommendations sim db user_id n_recommendations
    let content_movies := get_content_based_recommendations db user_id n_recommendations
    let composed := (warmCompose n_recommendations svd_movies item_movies content_movies).1
    let reranked :=
      if use_context then
        apply_diversity_boost (apply_temporal_filtering composed context) context
      else composed
    (filter_disliked_genres db reranked user_id).take n_recommendations

/-! ## Incremental model update (`incremental_update`) -/

/-- The result dict of `incremental_update` (the fields the claims read). -/
structure IncUpdateResult where
  updated : Bool
  update_type : Option String
  reason : Option String
deriving DecidableEq, Repr

/-- The most recent successful SVD entry of the Model Update Log
(`order_by(created_at.desc()).first()`). -/
def lastSuccessfulSvdLog (db : DB) : Option ModelUpdateLogRow :=
  (sortKeyDesc (fun l => l.created_at)
    (db.model_update_logs.filter (fun l => l.model_type == "svd" && l.success))).head?

/-- Ratings newer than the last successful model-update log entry, or all
ratings when no such entry exists. -/
def newRatingsCount (db : DB) : Nat :=
  match lastSuccessfulSvdLog db with
  | some lu =>
    (db.ratings.filter (fun r => decide (lu.created_at < r.timestamp))).length
  | none => db.ratings.length

/-- Default `incremental_update_threshold` (`getattr(self, ..., 50)`). -/
def incrementalUpdateThreshold : Nat := 50

/-- `incremental_update`: once the new-rating count reaches the threshold,
invalidate the cache, rebuild eagerly, and append one log entry; below the
threshold, report the reason and change nothing.  The Python method also
receives the triggering (user, movie, rating), which its logic never reads,
so they are omitted here.  `now` is the log row's `created_at` default. -/
def incremental_update (fcz : Factorizer) (st : RecState) (db : DB)
    (now : Nat) : IncUpdateResult × RecState × DB :=
  let new_ratings_count := newRatingsCount db
  if incrementalUpdateThreshold ≤ new_ratings_count then
    let built := build_svd_model fcz db
    let log_entry : ModelUpdateLogRow :=
      { model_type := "svd"
        update_type := "warm_start_rebuild"
        ratings_processed := new_ratings_count
        update_trigger := "threshold_reached_" ++ toString incrementalUpdateThreshold
        success := built.isSome
        created_at := now }
    (⟨true, some "warm_start_rebuild",
      some (toString new_ratings_count ++ " new ratings (threshold: "
        ++ toString incrementalUpdateThreshold ++ ")")⟩,
     ⟨built⟩,
     { db with model_update_logs := db.model_update_logs ++ [log_entry] })
  else
    (⟨false, none,
      some ("Threshold not reached (" ++ toString new_ratings_count ++ "/"
        ++ toString incrementalUpdateThreshold ++ " ratings)")⟩,
     st, db)

/-! ## Helper lemmas about the re-ranking passes -/

theorem scored_map_fst_perm {α : Type} (score : α → ℚ) (l : List α) :
    ((sortKeyDesc (fun p => p.2) (l.map (fun m => (m, score m)))).map (·.1)).Perm l := by
  have h := (sortKeyDesc_perm (fun p : α × ℚ => p.2)
    (l.map (fun m => (m, score m)))).map (·.1)
  simpa [Function.comp_def] using h

theorem apply_temporal_filtering_perm (movies : List Movie) (ctx : Context) :
    (apply_temporal_filtering movies ctx).Perm movies := by
  unfold apply_temporal_filtering
  exact scored_map_fst_perm _ movies

theorem apply_diversity_boost_perm (movies : List Movie) (ctx : Context) :
    (apply_diversity_boost movies ctx).Perm movies := by
  unfold apply_diversity_boost
  split
  · exact List.Perm.refl _
  · exact scored_map_fst_perm _ movies

theorem apply_diversity_boost_noop (movies : List Movie) (ctx : Context)
    (h : ctx.recent_genres = []) : apply_diversity_boost movies ctx = movies := by
  unfold apply_diversity_boost
  rw [h]
  simp

/-! ## Helper lemmas about the disliked-genre filter -/

theorem keepMovieSrc_eq_keepMovie (disliked : List String) (m : Movie) :
    keepMovieSrc disliked m = keepMovie disliked m := by
  rcases m with ⟨i, genres, vc, va, pop, rt⟩
  cases genres with
  | missing => rfl
  | unparsable => rfl
  | parsed gs => cases gs <;> simp [keepMovieSrc, keepMovie, GenreField.truthy]

theorem keepMovie_nil (m : Movie) : keepMovie [] m = true := by
  rcases m with ⟨i, genres, vc, va, pop, rt⟩
  cases genres <;> simp [keepMovie]

theorem filter_keepMovie_nil (movies : List Movie) :
    movies.filter (keepMovie []) = movies :=
  List.filter_eq_self.mpr (fun m _ => keepMovie_nil m)

theorem filter_disliked_genres_eq (db : DB) (movies : List Movie) (user_id : Nat) :
    filter_disliked_genres db movies user_id =
      if (movies.filter (keepMovie (dislikedGenres db user_id))).isEmpty then movies
      else movies.filter (keepMovie (dislikedGenres db user_id)) := by
  cases hfu : findUser db user_id with
  | none =>
    simp only [filter_disliked_genres, dislikedGenres, hfu, filter_keepMovie_nil, ite_self]
  | some user =>
    cases hp : user.genre_preferences with
    | missing =>
      simp only [filter_disliked_genres, dislikedGenres, hfu, hp, filter_keepMovie_nil,
        ite_self]
    | unparsable =>
      simp only [filter_disliked_genres, dislikedGenres, hfu, hp, filter_keepMovie_nil,
        ite_self]
    | parsed prefs =>
      simp only [filter_disliked_genres, dislikedGenres, hfu, hp]
      by_cases hpe : prefs.isEmpty
      · have hnil : prefs = [] := List.isEmpty_iff.mp hpe
        subst hnil
        simp [filter_keepMovie_nil]
      · simp only [hpe, Bool.false_eq_true, if_false]
        by_cases hde : ((prefs.filter (fun p => decide (p.2 < 0))).map (·.1)).isEmpty
        · have hnil : (prefs.filter (fun p => decide (p.2 < 0))).map (·.1) = [] :=
            List.isEmpty_iff.mp hde
          rw [hnil]
          simp [filter_keepMovie_nil]
        · simp only [hde, Bool.false_eq_true, if_false]
          rw [List.filter_congr
            (fun m _ => keepMovieSrc_eq_keepMovie
              ((prefs.filter (fun p => decide (p.2 < 0))).map (·.1)) m)]

/-! ## Claim theorems: filter, classifier, re-rankers -/

/-- **C5**: the disliked-genre filter removes exactly the movies whose parsed
genre set intersects the user's negatively scored genres; a movie with
missing or unparsable genre data is always kept; and when the removal would
leave nothing, the original list is returned unchanged. -/
theorem disliked_genre_filter_spec (db : DB) (movies : List Movie) (user_id : Nat) :
    filter_disliked_genres db movies user_id =
      if (movies.filter (keepMovie (dislikedGenres db user_id))).isEmpty then movies
      else movies.filter (keepMovie (dislikedGenres db user_id)) :=
  filter_disliked_genres_eq db movies user_id

/-- **C9**: the cold-start classifier returns `true` exactly when the sum of
the user's rating, favorite and watchlist counts is strictly below the fixed
threshold 3; it is a pure read of the store, so two classifications of the
same snapshot agree by construction. -/
theorem cold_start_classifier_spec (db : DB) (user_id : Nat) :
    is_cold_start_user db user_id = true ↔
      (db.ratings.filter (fun r => r.user_id == user_id)).length
        + (db.favorites.filter (fun f => f.user_id == user_id)).length
        + (db.watchlist.filter (fun w => w.user_id == user_id)).length < 3 := by
  simp [is_cold_start_user]

/-- **C10**: each re-ranking pass returns a permutation of its input — the
same movies with the same multiplicities, only reordered. -/
theorem rerankers_return_permutation (movies : List Movie) (ctx : Context) :
    (apply_temporal_filtering movies ctx).Perm movies ∧
      (apply_diversity_boost movies ctx).Perm movies :=
  ⟨apply_temporal_filtering_perm movies ctx, apply_diversity_boost_perm movies ctx⟩

/-- **C2 (amended)**: the diversity booster returns its input unchanged when
the recent-genre set is empty; the temporal re-ranker only permutes its
input and, depending only on clock context, need not return it unchanged. -/
theorem reranker_noop_spec (movies : List Movie) (ctx : Context)
    (h : ctx.recent_genres = []) :
    apply_diversity_boost movies ctx = movies ∧
      (apply_temporal_filtering movies ctx).Perm movies :=
  ⟨apply_diversity_boost_noop movies ctx h, apply_temporal_filtering_perm movies ctx⟩

/-- Two catalog movies used by concrete evaluations. -/
def movieWestern : Movie := ⟨1, .parsed ["Western"], 200, 7, 10, none⟩

def movieDrama : Movie := ⟨2, .parsed ["Drama"], 200, 7, 10, none⟩

/-- A store in which user 7 has no interactions at all. -/
def dbNoHistory : DB := ⟨[movieWestern, movieDrama], [], [], [], [], []⟩

/-- **C2 (counterexample)**: for a user with no recent-interaction history
(the extracted context has an empty recent-genre set), the temporal
re-ranker still reorders the list — on a weekday evening it moves the Drama
title ahead of the Western — so the claimed temporal no-op fails. -/
theorem temporal_reranker_not_noop :
    (get_contextual_features dbNoHistory ⟨18, 2⟩ 7).recent_genres = [] ∧
      apply_temporal_filtering [movieWestern, movieDrama]
          (get_contextual_features dbNoHistory ⟨18, 2⟩ 7)
        ≠ [movieWestern, movieDrama] := by
  with_unfolding_all decide

theorem reranker_noop_spec_witness :
    apply_diversity_boost [movieWestern] (get_contextual_features dbNoHistory ⟨18, 2⟩ 7)
      = [movieWestern] :=
  (reranker_noop_spec [movieWestern] _ (by with_unfolding_all decide)).1

/-! ## The incremental-update trigger -/

theorem threshold_trigger_string :
    "threshold_reached_" ++ toString incrementalUpdateThreshold = "threshold_reached_50" := by
  with_unfolding_all decide

/-- **C3**: the default threshold is 50; once the count of ratings newer than
the last successful model-update log entry reaches it, `incremental_update`
replaces the cached model with a fresh build from the current ratings and
appends exactly one log entry whose trigger is `threshold_reached_50`; below
the threshold it reports a reason and leaves the state and store unchanged. -/
theorem incremental_update_spec (fcz : Factorizer) (st : RecState) (db : DB)
    (now : Nat) :
    incrementalUpdateThreshold = 50
      ∧ (incrementalUpdateThreshold ≤ newRatingsCount db →
          (incremental_update fcz st db now).2.2.model_update_logs
              = db.model_update_logs
                ++ [⟨"svd", "warm_start_rebuild", newRatingsCount db,
                      "threshold_reached_50", (build_svd_model fcz db).isSome, now⟩]
            ∧ (incremental_update fcz st db now).2.1.svd = build_svd_model fcz db
            ∧ (incremental_update fcz st db now).1.updated = true)
      ∧ (newRatingsCount db < incrementalUpdateThreshold →
          (incremental_update fcz st db now).1.updated = false
            ∧ ((incremental_update fcz st db now).1.reason).isSome = true
            ∧ (incremental_update fcz st db now).2.1 = st
            ∧ (incremental_update fcz st db now).2.2 = db) := by
  refine ⟨rfl, ?_, ?_⟩
  · intro h
    simp only [incremental_update, if_pos h]
    rw [threshold_trigger_string]
    refine ⟨?_, ?_, ?_⟩ <;> first | rfl | trivial
  · intro h
    simp only [incremental_update, if_neg (by omega : ¬ incrementalUpdateThreshold ≤ newRatingsCount db)]
    refine ⟨?_, ?_, ?_, ?_⟩ <;> first | rfl | trivial

/-- Fifty ratings by one user, written after an empty log — enough to cross
the update threshold. -/
def dbFifty : DB :=
  ⟨[], [], (List.range 50).map (fun i => ⟨1, i, 4, 1⟩), [], [], []⟩

theorem incremental_update_spec_witness :
    incrementalUpdateThreshold ≤ newRatingsCount dbFifty ∧
      (incremental_update (fun _ _ => ([], [])) ⟨none⟩ dbFifty 9).1.updated = true :=
  ⟨by with_unfolding_all decide,
    ((incremental_update_spec (fun _ _ => ([], [])) ⟨none⟩ dbFifty 9).2.1
      (by with_unfolding_all decide)).2.2⟩

/-! ## Lookup lemmas for the interaction-strength matrix -/

/-- The strength the map records for key `k`. -/
def lookupPair (l : List ((Nat × Nat) × ℚ)) (k : Nat × Nat) : Option ℚ :=
  (l.find? (fun e => e.1 == k)).map (·.2)

theorem lookupPair_setPair (acc : List ((Nat × Nat) × ℚ)) (k' k : Nat × Nat)
    (v : ℚ) :
    lookupPair (setPair acc k' v) k
      = if k' == k then some v else lookupPair acc k := by
  induction acc with
  | nil =>
    by_cases h : k' = k <;> simp [setPair, updateAssoc, lookupPair, h]
  | cons e rest ih =>
    obtain ⟨k₀, v₀⟩ := e
    by_cases h0 : k₀ = k'
    · subst h0
      by_cases h1 : k₀ = k <;>
        simp [setPair, updateAssoc, lookupPair, h1, List.find?_cons_of_pos,
          List.find?_cons_of_neg]
    · have hne : (k₀ == k') = false := beq_eq_false_iff_ne.mpr h0
      by_cases h1 : k₀ = k
      · subst h1
        have hkk : ¬ k' = k₀ := fun h => h0 h.symm
        have hkk' : (k' == k₀) = false := beq_eq_false_iff_ne.mpr hkk
        simp [setPair, updateAssoc, lookupPair, hne, hkk', List.find?_cons_of_pos]
      · have hne1 : (k₀ == k) = false := beq_eq_false_iff_ne.mpr h1
        have ih' := ih
        simp only [setPair] at ih' ⊢
        simp only [updateAssoc, hne, Bool.false_eq_true, if_false]
        simp only [lookupPair] at ih' ⊢
        rw [List.find?_cons_of_neg _ (by simp [hne1]),
          List.find?_cons_of_neg _ (by simp [hne1])]
        exact ih'

theorem lookupPair_isSome_iff_any (acc : List ((Nat × Nat) × ℚ)) (k : Nat × Nat) :
    (lookupPair acc k).isSome = acc.any (fun e => e.1 == k) := by
  induction acc with
  | nil => simp [lookupPair]
  | cons e rest ih =>
    by_cases h : e.1 = k
    · have hb : (e.1 == k) = true := beq_iff_eq.mpr h
      simp [lookupPair, List.find?_cons_of_pos, hb, List.any_cons]
    · have hb : (e.1 == k) = false := beq_eq_false_iff_ne.mpr h
      rw [List.any_cons, hb]
      simp only [lookupPair] at ih ⊢
      rw [List.find?_cons_of_neg _ (by simp [hb])]
      simpa using ih

theorem lookupPair_append_single (acc : List ((Nat × Nat) × ℚ))
    (k' k : Nat × Nat) (c : ℚ) :
    lookupPair (acc ++ [(k', c)]) k
      = (lookupPair acc k).or (if k' == k then some c else none) := by
  rcases hfind : acc.find? (fun e => e.1 == k) with _ | e0
  · by_cases hk : k' = k
    · have hb : (k' == k) = true := beq_iff_eq.mpr hk
      simp [lookupPair, List.find?_append, hfind, hb, List.find?]
    · have hb : (k' == k) = false := beq_eq_false_iff_ne.mpr hk
      simp [lookupPair, List.find?_append, hfind, hb, List.find?]
  · simp [lookupPair, List.find?_append, hfind]

theorem lookupPair_setPairIfAbsent (acc : List ((Nat × Nat) × ℚ))
    (k' k : Nat × Nat) (c : ℚ) :
    lookupPair (setPairIfAbsent acc k' c) k
      = (lookupPair acc k).or
          (if (k' == k) = true ∧ acc.any (fun e => e.1 == k') = false then some c
           else none) := by
  by_cases hp : acc.any (fun e => e.1 == k') = true
  · simp only [setPairIfAbsent, hp, if_true]
    rcases h : lookupPair acc k with _ | v
    · simp [hp]
    · rfl
  · have hp' : acc.any (fun e => e.1 == k') = false := by
      revert hp
      cases acc.any (fun e => e.1 == k') <;> simp
    simp only [setPairIfAbsent, hp', Bool.false_eq_true, if_false]
    rw [lookupPair_append_single]
    rcases h : lookupPair acc k with _ | v
    · by_cases hk : k' = k
      · have hb : (k' == k) = true := beq_iff_eq.mpr hk
        simp [hb, hp']
      · have hb : (k' == k) = false := beq_eq_false_iff_ne.mpr hk
        simp [hb]
    · rfl

theorem lookupPair_foldIfAbsent {α : Type} (keyf : α → Nat × Nat) (c : ℚ)
    (xs : List α) (acc : List ((Nat × Nat) × ℚ)) (k : Nat × Nat) :
    lookupPair (xs.foldl (fun a x => setPairIfAbsent a (keyf x) c) acc) k
      = (lookupPair acc k).or
          (if xs.any (fun x => keyf x == k) then some c else none) := by
  induction xs generalizing acc with
  | nil =>
    rcases h : lookupPair acc k with _ | v <;> simp [h]
  | cons x rest ih =>
    rw [List.foldl_cons, ih, lookupPair_setPairIfAbsent]
    rcases h : lookupPair acc k with _ | v
    · rw [Option.none_or, Option.none_or]
      by_cases hx : keyf x == k
      · have hxeq : keyf x = k := beq_iff_eq.mp hx
        have habs : acc.any (fun e => e.1 == keyf x) = false := by
          rw [← lookupPair_isSome_iff_any, hxeq, h]
          rfl
        simp [hx, habs, List.any_cons]
      · have hx' : (keyf x == k) = false := by
          revert hx
          cases keyf x == k <;> simp
        simp [hx', List.any_cons]
    · simp

theorem lookupPair_ratings_fold (rs : List RatingRow)
    (acc : List ((Nat × Nat) × ℚ)) (k : Nat × Nat) :
    lookupPair (rs.foldl (fun a r => setPair a (r.user_id, r.movie_id) r.rating) acc) k
      = ((rs.reverse.find? (fun r => (r.user_id, r.movie_id) == k)).map
          (·.rating)).or (lookupPair acc k) := by
  induction rs generalizing acc with
  | nil => simp
  | cons r rest ih =>
    rw [List.foldl_cons, ih, lookupPair_setPair, List.reverse_cons, List.find?_append]
    rcases hfind : rest.reverse.find? (fun r => (r.user_id, r.movie_id) == k) with _ | r0
    · by_cases hk : (r.user_id, r.movie_id) == k
      · simp [List.find?, hk, hfind]
      · have hk' : ((r.user_id, r.movie_id) == k) = false := by
          revert hk
          cases (r.user_id, r.movie_id) == k <;> simp
        simp [List.find?, hk', hfind]
    · simp [hfind]

/-- **C8**: in the interaction-strength map, an explicit rating always
supplies the pair's strength (the last written matching rating); a favorite
contributes the fixed implicit strength 4.5 only when no rating exists for
the pair; a watchlist entry contributes the lower strength 3.5 only when
neither a rating nor a favorite covers the pair (`Option.or` short-circuits
left to right), and the favorite strength exceeds the watchlist strength. -/
theorem interaction_strength_spec (db : DB) (u m : Nat) :
    strengthOf db u m
      = (((db.ratings.reverse.find?
              (fun r => (r.user_id, r.movie_id) == (u, m))).map (·.rating)).or
          (if db.favorites.any (fun f => (f.user_id, f.movie_id) == (u, m))
           then some (9/2) else none)).or
          (if db.watchlist.any (fun w => (w.user_id, w.movie_id) == (u, m))
           then some (7/2) else none)
      ∧ (7 : ℚ)/2 < 9/2 := by
  constructor
  · show lookupPair (build_interaction_strengths db) (u, m) = _
    unfold build_interaction_strengths
    rw [lookupPair_foldIfAbsent (fun w : WatchlistRow => (w.user_id, w.movie_id)),
      lookupPair_foldIfAbsent (fun f : FavoriteRow => (f.user_id, f.movie_id)),
      lookupPair_ratings_fold]
    have hnil : lookupPair [] (u, m) = none := rfl
    rw [hnil]
    rcases hfind : db.ratings.reverse.find?
        (fun r => (r.user_id, r.movie_id) == (u, m)) with _ | r0 <;>
      simp
  · norm_num

/-! ## SVD build failure and the item-based fallback -/

/-- **C4**: the latent-factor build reports failure (returns the boolean
`False`, here `none`) whenever the system-wide rating count is below the
minimum, fewer than two distinct users have ratings, or the feasible rank
`min(svd_components, min(matrix dims) - 1)` is below 2; and whenever the
model is unavailable — a failed build with an empty cache, or a user absent
from the trained user index — the predictor returns exactly the item-based
generator's result instead of raising. -/
theorem svd_failure_fallback_spec (fcz : Factorizer) (sim : Similarity)
    (st : RecState) (db : DB) (user_id n : Nat) :
    (db.ratings.length < svdMinRatings → build_svd_model fcz db = none)
      ∧ ((svdUserIds db).length < 2 → build_svd_model fcz db = none)
      ∧ (min svdComponents (min (svdUserIds db).length (ratedMovieIds db).length - 1) < 2 →
          build_svd_model fcz db = none)
      ∧ (st.svd = none → build_svd_model fcz db = none →
          get_svd_recommendations fcz sim st db user_id n
            = get_item_based_recommendations sim db user_id n)
      ∧ (∀ model, st.svd = some model → user_id ∉ model.user_ids →
          get_svd_recommendations fcz sim st db user_id n
            = get_item_based_recommendations sim db user_id n)
      ∧ (∀ model, st.svd = none → build_svd_model fcz db = some model →
          user_id ∉ model.user_ids →
          get_svd_recommendations fcz sim st db user_id n
            = get_item_based_recommendations sim db user_id n) := by
  refine ⟨?_, ?_, ?_, ?_, ?_, ?_⟩
  · intro h
    simp only [build_svd_model, if_pos h]
  · intro h
    by_cases h1 : db.ratings.length < svdMinRatings
    · simp only [build_svd_model, if_pos h1]
    · simp only [build_svd_model, if_neg h1, if_pos h]
  · intro h
    by_cases h1 : db.ratings.length < svdMinRatings
    · simp only [build_svd_model, if_pos h1]
    · by_cases h2 : (svdUserIds db).length < 2
      · simp only [build_svd_model, if_neg h1, if_pos h2]
      · simp only [build_svd_model, if_neg h1, if_neg h2, if_pos h]
  · intro hst hb
    simp only [get_svd_recommendations, hst, hb]
  · intro model hst hmem
    have hc : model.user_ids.contains user_id = false := by
      simpa using hmem
    simp only [get_svd_recommendations, hst, hc, Bool.not_false, if_pos]
  · intro model hst hb hmem
    have hc : model.user_ids.contains user_id = false := by
      simpa using hmem
    simp only [get_svd_recommendations, hst, hb, hc, Bool.not_false, if_pos]

/-- A store with no ratings at all: the build must fail and the predictor
must take the item-based fallback. -/
def dbEmpty : DB := ⟨[movieWestern, movieDrama], [], [], [], [], []⟩

theorem svd_failure_fallback_spec_witness :
    build_svd_model (fun _ _ => ([], [])) dbEmpty = none
      ∧ get_svd_recommendations (fun _ _ => ([], [])) (fun _ _ => 0) ⟨none⟩ dbEmpty 7 5
          = get_item_based_recommendations (fun _ _ => 0) dbEmpty 7 5 := by
  have h := svd_failure_fallback_spec (fun _ _ => ([], [])) (fun _ _ => 0) ⟨none⟩ dbEmpty 7 5
  refine ⟨h.1 (by with_unfolding_all decide), ?_⟩
  exact h.2.2.2.1 rfl (h.1 (by with_unfolding_all decide))

/-! ## Invariants of the composer fill loops -/

/-- The composer state invariant: picked ids are duplicate-free and every
picked id has been recorded in the seen set. -/
def GoodState (st : List Movie × List Nat) : Prop :=
  (st.1.map (·.id)).Nodup ∧ ∀ x ∈ st.1, x.id ∈ st.2

theorem goodState_nil : GoodState ([], []) := by
  constructor
  · exact List.nodup_nil
  · intro x hx
    exact absurd hx (List.not_mem_nil x)

theorem goodState_append (st : List Movie × List Nat) (m : Movie)
    (h : GoodState st) (hm : st.2.contains m.id = false) :
    GoodState (st.1 ++ [m], st.2 ++ [m.id]) := by
  have hmem : m.id ∉ st.2 := by simpa using hm
  constructor
  · rw [List.map_append, List.nodup_append]
    refine ⟨h.1, by simp, ?_⟩
    intro a ha hb
    simp only [List.map_cons, List.map_nil, List.mem_singleton] at hb
    subst hb
    rcases List.mem_map.mp ha with ⟨x, hx, hxa⟩
    exact hmem (hxa ▸ h.2 x hx)
  · intro x hx
    rcases List.mem_append.mp hx with hx1 | hx2
    · exact List.mem_append.mpr (Or.inl (h.2 x hx1))
    · simp only [List.mem_singleton] at hx2
      subst hx2
      exact List.mem_append.mpr (Or.inr (by simp))

theorem addCapped_good (cap : Nat) (src : List Movie) (st : List Movie × List Nat)
    (h : GoodState st) : GoodState (addCapped cap src st) := by
  induction src generalizing st with
  | nil => exact h
  | cons m rest ih =>
    simp only [addCapped, List.foldl_cons]
    by_cases hg : (!st.2.contains m.id && decide (st.1.length < cap)) = true
    · rw [if_pos hg]
      rw [Bool.and_eq_true] at hg
      refine ih _ (goodState_append st m h ?_)
      have := hg.1
      revert this
      cases st.2.contains m.id <;> simp
    · rw [if_neg hg]
      exact ih _ h

theorem addUncapped_good (src : List Movie) (st : List Movie × List Nat)
    (h : GoodState st) : GoodState (addUncapped src st) := by
  induction src generalizing st with
  | nil => exact h
  | cons m rest ih =>
    simp only [addUncapped, List.foldl_cons]
    by_cases hg : (!st.2.contains m.id) = true
    · rw [if_pos hg]
      exact ih _ (goodState_append st m h (by
        revert hg
        cases st.2.contains m.id <;> simp))
    · rw [if_neg hg]
      exact ih _ h

theorem addCapped_length_le (cap : Nat) (src : List Movie)
    (st : List Movie × List Nat) (h : st.1.length ≤ cap) :
    (addCapped cap src st).1.length ≤ cap := by
  induction src generalizing st with
  | nil => exact h
  | cons m rest ih =>
    simp only [addCapped, List.foldl_cons]
    by_cases hg : (!st.2.contains m.id && decide (st.1.length < cap)) = true
    · rw [if_pos hg]
      rw [Bool.and_eq_true] at hg
      refine ih _ ?_
      have hlt : st.1.length < cap := of_decide_eq_true hg.2
      simpa using hlt
    · rw [if_neg hg]
      exact ih _ h

theorem addCapped_length_le_add (cap : Nat) (src : List Movie)
    (st : List Movie × List Nat) :
    (addCapped cap src st).1.length ≤ st.1.length + src.length := by
  induction src generalizing st with
  | nil => simp [addCapped]
  | cons m rest ih =>
    simp only [addCapped, List.foldl_cons]
    by_cases hg : (!st.2.contains m.id && decide (st.1.length < cap)) = true
    · rw [if_pos hg]
      have h2 := ih ((st.1 ++ [m], st.2 ++ [m.id]))
      simp only [addCapped] at h2
      simp only [List.length_append, List.length_cons, List.length_nil] at h2 ⊢
      omega
    · rw [if_neg hg]
      have h2 := ih st
      simp only [addCapped] at h2
      simp only [List.length_cons] at h2 ⊢
      omega

theorem addUncapped_length_le_add (src : List Movie) (st : List Movie × List Nat) :
    (addUncapped src st).1.length ≤ st.1.length + src.length := by
  induction src generalizing st with
  | nil => simp [addUncapped]
  | cons m rest ih =>
    simp only [addUncapped, List.foldl_cons]
    by_cases hg : (!st.2.contains m.id) = true
    · rw [if_pos hg]
      have h2 := ih ((st.1 ++ [m], st.2 ++ [m.id]))
      simp only [addUncapped] at h2
      simp only [List.length_append, List.length_cons, List.length_nil] at h2 ⊢
      omega
    · rw [if_neg hg]
      have h2 := ih st
      simp only [addUncapped] at h2
      simp only [List.length_cons] at h2 ⊢
      omega

theorem addCapped_subset (cap : Nat) (src : List Movie)
    (st : List Movie × List Nat) :
    ∀ x ∈ (addCapped cap src st).1, x ∈ st.1 ∨ x ∈ src := by
  induction src generalizing st with
  | nil =>
    intro x hx
    exact Or.inl hx
  | cons m rest ih =>
    intro x hx
    simp only [addCapped, List.foldl_cons] at hx
    by_cases hg : (!st.2.contains m.id && decide (st.1.length < cap)) = true
    · rw [if_pos hg] at hx
      rcases ih _ x hx with h1 | h2
      · rcases List.mem_append.mp h1 with h3 | h4
        · exact Or.inl h3
        · simp only [List.mem_singleton] at h4
          exact Or.inr (h4 ▸ List.mem_cons_self m rest)
      · exact Or.inr (List.mem_cons_of_mem m h2)
    · rw [if_neg hg] at hx
      rcases ih _ x hx with h1 | h2
      · exact Or.inl h1
      · exact Or.inr (List.mem_cons_of_mem m h2)

theorem mem_take_sort {α β : Type} [LinearOrder β] (key : α → β) (n : Nat)
    (l : List α) (x : α) (hx : x ∈ (sortKeyDesc key l).take n) : x ∈ l :=
  (sortKeyDesc_perm key l).mem_iff.mp (List.mem_of_mem_take hx)

theorem mem_map_take_sort {α β : Type} [LinearOrder β] (key : α × β → β) (n : Nat)
    (l : List (α × β)) (x : α)
    (hx : x ∈ ((sortKeyDesc key l).take n).map (·.1)) : ∃ p ∈ l, p.1 = x := by
  rcases List.mem_map.mp hx with ⟨p, hp, hpx⟩
  exact ⟨p, mem_take_sort key n l p hp, hpx⟩

theorem updateAssoc_keys {κ β : Type} [BEq κ] (k : κ) (f : β → β) (d : β)
    (l : List (κ × β)) :
    ∀ p ∈ updateAssoc k f d l, p.1 = k ∨ p.1 ∈ l.map Prod.fst := by
  induction l with
  | nil =>
    intro p hp
    simp only [updateAssoc, List.mem_singleton] at hp
    exact Or.inl (by rw [hp])
  | cons e rest ih =>
    obtain ⟨k0, v0⟩ := e
    intro p hp
    simp only [updateAssoc] at hp
    by_cases h0 : (k0 == k) = true
    · rw [if_pos h0] at hp
      rcases List.mem_cons.mp hp with h1 | h2
      · exact Or.inr (by rw [List.map_cons, h1]; exact List.mem_cons_self _ _)
      · exact Or.inr (List.mem_map.mpr ⟨p, List.mem_cons_of_mem _ h2, rfl⟩)
    · rw [if_neg h0] at hp
      rcases List.mem_cons.mp hp with h1 | h2
      · exact Or.inr (by rw [List.map_cons, h1]; exact List.mem_cons_self _ _)
      · rcases ih p h2 with h3 | h4
        · exact Or.inl h3
        · exact Or.inr (by rw [List.map_cons]; exact List.mem_cons_of_mem _ h4)

theorem filter_disliked_subset (db : DB) (movies : List Movie) (user_id : Nat) :
    ∀ x ∈ filter_disliked_genres db movies user_id, x ∈ movies := by
  rw [filter_disliked_genres_eq]
  split
  · intro x hx
    exact hx
  · intro x hx
    exact (List.mem_filter.mp hx).1

theorem filter_disliked_length_le (db : DB) (movies : List Movie) (user_id : Nat) :
    (filter_disliked_genres db movies user_id).length ≤ movies.length := by
  rw [filter_disliked_genres_eq]
  split
  · exact le_refl _
  · exact List.length_filter_le _ _

theorem filter_disliked_nodup (db : DB) (movies : List Movie) (user_id : Nat)
    (h : (movies.map (·.id)).Nodup) :
    ((filter_disliked_genres db movies user_id).map (·.id)).Nodup := by
  rw [filter_disliked_genres_eq]
  split
  · exact h
  · exact h.sublist ((List.filter_sublist movies).map (·.id))

theorem nodup_map_take {α : Type} (l : List α) (f : α → Nat) (n : Nat)
    (h : (l.map f).Nodup) : ((l.take n).map f).Nodup :=
  h.sublist ((List.take_sublist n l).map f)

theorem nodup_map_of_perm {l l' : List Movie} (h : l.Perm l')
    (hn : (l'.map (·.id)).Nodup) : (l.map (·.id)).Nodup :=
  ((h.map (·.id)).nodup_iff).mpr hn

theorem contains_true_iff {l : List Nat} {a : Nat} : l.contains a = true ↔ a ∈ l := by
  simp [List.elem_iff]

theorem contains_eq_false_of_not_mem {l : List Nat} {a : Nat} (h : a ∉ l) :
    l.contains a = false := by
  cases hc : l.contains a
  · rfl
  · exact absurd (contains_true_iff.mp hc) h

theorem not_mem_of_bang_contains {l : List Nat} {a : Nat}
    (h : (!l.contains a) = true) : a ∉ l := by
  intro hmem
  rw [contains_true_iff.mpr hmem] at h
  simp at h

/-! ## No generator returns a movie the user rated at most 2.0 -/

theorem get_popular_movies_not_excluded (db : DB) (n uid : Nat) (h0 : uid ≠ 0) :
    ∀ x ∈ get_popular_movies db n (some uid), x.id ∉ get_excluded_movie_ids db uid := by
  intro x hx hex
  have h0' : (uid == 0) = false := by simpa using h0
  simp only [get_popular_movies, h0', Bool.false_eq_true, if_false] at hx
  have hx' := mem_take_sort (fun m : Movie => m.vote_average) n _ x hx
  split at hx'
  · rename_i hempty
    have hnil : get_excluded_movie_ids db uid = [] :=
      (List.append_eq_nil.mp (List.isEmpty_iff.mp hempty)).2
    rw [hnil] at hex
    exact absurd hex (List.not_mem_nil _)
  · have hp := not_mem_of_bang_contains (List.mem_filter.mp hx').2
    exact hp (List.mem_append.mpr (Or.inr hex))

theorem get_genre_based_not_excluded (db : DB) (uid n : Nat) (h0 : uid ≠ 0) :
    ∀ x ∈ get_genre_based_recommendations db uid n,
      x.id ∉ get_excluded_movie_ids db uid := by
  intro x hx
  rcases hfu : findUser db uid with _ | user
  · simp only [get_genre_based_recommendations, hfu] at hx
    exact get_popular_movies_not_excluded db n uid h0 x hx
  · cases hp : user.genre_preferences with
    | missing =>
      simp only [get_genre_based_recommendations, hfu, hp] at hx
      exact get_popular_movies_not_excluded db n uid h0 x hx
    | unparsable =>
      simp only [get_genre_based_recommendations, hfu, hp] at hx
      exact get_popular_movies_not_excluded db n uid h0 x hx
    | parsed prefs =>
      simp only [get_genre_based_recommendations, hfu, hp] at hx
      split at hx
      · exact get_popular_movies_not_excluded db n uid h0 x hx
      · split at hx
        · exact get_popular_movies_not_excluded db n uid h0 x hx
        · rcases mem_map_take_sort _ n _ x hx with ⟨p, hpmem, hp1⟩
          rcases List.mem_filterMap.mp hpmem with ⟨a, _, hfa⟩
          split at hfa
          · exact absurd hfa (by simp)
          · rename_i hexc
            split at hfa
            · split at hfa
              · injection hfa with he
                intro hmem
                have hax : a = x := by rw [← hp1, ← he]
                exact hexc (contains_true_iff.mpr (hax ▸ hmem))
              · exact absurd hfa (by simp)
            · exact absurd hfa (by simp)

theorem get_demographic_not_excluded (db : DB) (uid n : Nat) (h0 : uid ≠ 0) :
    ∀ x ∈ get_demographic_recommendations db uid n,
      x.id ∉ get_excluded_movie_ids db uid := by
  intro x hx
  rcases hfu : findUser db uid with _ | user
  · simp only [get_demographic_recommendations, hfu] at hx
    exact get_popular_movies_not_excluded db n uid h0 x hx
  · simp only [get_demographic_recommendations, hfu] at hx
    split at hx
    · exact get_popular_movies_not_excluded db n uid h0 x hx
    · split at hx
      · exact get_popular_movies_not_excluded db n uid h0 x hx
      · rcases List.mem_filterMap.mp hx with ⟨mid, hmid, hfind⟩
        have hpred := List.find?_some hfind
        have hxid : x.id = mid := beq_iff_eq.mp hpred
        rcases mem_map_take_sort _ n _ mid hmid with ⟨p, hpmem, hp1⟩
        rcases List.mem_filterMap.mp hpmem with ⟨s, _, hfs⟩
        split at hfs
        · exact absurd hfs (by simp)
        · rename_i hexc
          injection hfs with he
          intro hmem
          apply hexc
          rw [contains_true_iff]
          have hps : p.1 = s.1 := by rw [← he]
          rw [← hps, hp1, ← hxid]
          exact hmem

theorem get_content_based_not_excluded (db : DB) (uid n : Nat) (h0 : uid ≠ 0) :
    ∀ x ∈ get_content_based_recommendations db uid n,
      x.id ∉ get_excluded_movie_ids db uid := by
  intro x hx
  simp only [get_content_based_recommendations] at hx
  split at hx
  · exact get_popular_movies_not_excluded db n uid h0 x hx
  · split at hx
    · exact get_popular_movies_not_excluded db n uid h0 x hx
    · rcases mem_map_take_sort _ n _ x hx with ⟨p, hpmem, hp1⟩
      rcases List.mem_filterMap.mp hpmem with ⟨a, _, hfa⟩
      split at hfa
      · rename_i hg
        split at hfa
        · split at hfa
          · injection hfa with he
            intro hmem
            rw [Bool.and_eq_true] at hg
            have hax : a = x := by rw [← hp1, ← he]
            exact not_mem_of_bang_contains hg.2 (hax ▸ hmem)
          · exact absurd hfa (by simp)
        · exact absurd hfa (by simp)
      · exact absurd hfa (by simp)

theorem item_inner_keys (sim : Similarity) (mid : Nat) (seen excluded : List Nat)
    (similar : List Nat) (acc : List (Nat × ℚ))
    (hacc : ∀ p ∈ acc, p.1 ∉ excluded) :
    ∀ p ∈ similar.foldl (fun acc2 m2 =>
        if !seen.contains m2 && !excluded.contains m2 then
          updateAssoc m2 (· + sim mid m2) (sim mid m2) acc2
        else acc2) acc, p.1 ∉ excluded := by
  induction similar generalizing acc with
  | nil => exact hacc
  | cons m2 rest ih =>
    simp only [List.foldl_cons]
    by_cases hg : (!seen.contains m2 && !excluded.contains m2) = true
    · rw [if_pos hg]
      refine ih _ ?_
      intro p hp
      rcases updateAssoc_keys m2 _ _ acc p hp with h1 | h2
      · rw [h1]
        rw [Bool.and_eq_true] at hg
        exact not_mem_of_bang_contains hg.2
      · rcases List.mem_map.mp h2 with ⟨q, hq, hq1⟩
        exact hq1 ▸ hacc q hq
    · rw [if_neg hg]
      exact ih _ hacc

theorem item_outer_keys (sim : Similarity) (seen excluded itemIndex : List Nat)
    (liked : List Nat) (acc : List (Nat × ℚ))
    (hacc : ∀ p ∈ acc, p.1 ∉ excluded) :
    ∀ p ∈ liked.foldl (fun acc mid =>
        if itemIndex.contains mid then
          ((((sortKeyDesc (fun m2 => sim mid m2) itemIndex).drop 1).take 20).foldl
            (fun acc2 m2 =>
              if !seen.contains m2 && !excluded.contains m2 then
                updateAssoc m2 (· + sim mid m2) (sim mid m2) acc2
              else acc2) acc)
        else acc) acc, p.1 ∉ excluded := by
  induction liked generalizing acc with
  | nil => exact hacc
  | cons mid rest ih =>
    simp only [List.foldl_cons]
    by_cases hg : itemIndex.contains mid = true
    · rw [if_pos hg]
      exact ih _ (item_inner_keys sim mid seen excluded _ acc hacc)
    · rw [if_neg hg]
      exact ih _ hacc

theorem get_item_based_not_excluded (sim : Similarity) (db : DB) (uid n : Nat)
    (h0 : uid ≠ 0) :
    ∀ x ∈ get_item_based_recommendations sim db uid n,
      x.id ∉ get_excluded_movie_ids db uid := by
  intro x hx
  simp only [get_item_based_recommendations] at hx
  split at hx
  · exact get_popular_movies_not_excluded db n uid h0 x hx
  · split at hx
    · exact get_popular_movies_not_excluded db n uid h0 x hx
    · split at hx
      · exact get_popular_movies_not_excluded db n uid h0 x hx
      · rcases List.mem_filterMap.mp hx with ⟨mid, hmid, hfind⟩
        have hpred := List.find?_some hfind
        have hxid : x.id = mid := beq_iff_eq.mp hpred
        rcases mem_map_take_sort _ n _ mid hmid with ⟨p, hpmem, hp1⟩
        have hkeys := item_outer_keys sim _ (get_excluded_movie_ids db uid) _ _ []
          (by intro q hq; exact absurd hq (List.not_mem_nil q)) p hpmem
        rw [hp1, ← hxid] at hkeys
        exact hkeys

theorem get_svd_not_excluded (fcz : Factorizer) (sim : Similarity) (st : RecState)
    (db : DB) (uid n : Nat) (h0 : uid ≠ 0) :
    ∀ x ∈ get_svd_recommendations fcz sim st db uid n,
      x.id ∉ get_excluded_movie_ids db uid := by
  intro x hx
  simp only [get_svd_recommendations] at hx
  split at hx
  · exact get_item_based_not_excluded sim db uid n h0 x hx
  · split at hx
    · exact get_item_based_not_excluded sim db uid n h0 x hx
    · rcases List.mem_filterMap.mp hx with ⟨mid, hmid, hfind⟩
      have hpred := List.find?_some hfind
      have hxid : x.id = mid := beq_iff_eq.mp hpred
      rcases mem_map_take_sort _ n _ mid hmid with ⟨p, hpmem, hp1⟩
      rcases List.mem_filterMap.mp hpmem with ⟨q, _, hfq⟩
      split at hfq
      · rename_i hg
        injection hfq with he
        intro hmem
        have hqx : q.2 = x.id := by rw [hxid, ← hp1, ← he]
        refine not_mem_of_bang_contains hg ?_
        rw [hqx]
        exact List.mem_append.mpr (Or.inr hmem)
      · exact absurd hfq (by simp)

theorem addUncapped_subset (src : List Movie) (st : List Movie × List Nat) :
    ∀ x ∈ (addUncapped src st).1, x ∈ st.1 ∨ x ∈ src := by
  induction src generalizing st with
  | nil =>
    intro x hx
    exact Or.inl hx
  | cons m rest ih =>
    intro x hx
    simp only [addUncapped, List.foldl_cons] at hx
    by_cases hg : (!st.2.contains m.id) = true
    · rw [if_pos hg] at hx
      rcases ih _ x hx with h1 | h2
      · rcases List.mem_append.mp h1 with h3 | h4
        · exact Or.inl h3
        · simp only [List.mem_singleton] at h4
          exact Or.inr (h4 ▸ List.mem_cons_self m rest)
      · exact Or.inr (List.mem_cons_of_mem m h2)
    · rw [if_neg hg] at hx
      rcases ih _ x hx with h1 | h2
      · exact Or.inl h1
      · exact Or.inr (List.mem_cons_of_mem m h2)

/-! ## Composition-level invariants -/

theorem goodState_iteAdd {c : Prop} [Decidable c] (cap : Nat) (src : List Movie)
    (st : List Movie × List Nat) (h : GoodState st) :
    GoodState (if c then addCapped cap src st else st) := by
  by_cases hc : c
  · rw [if_pos hc]
    exact addCapped_good _ _ _ h
  · rw [if_neg hc]
    exact h

theorem length_iteAdd {c : Prop} [Decidable c] (cap : Nat) (src : List Movie)
    (st : List Movie × List Nat) (h : st.1.length ≤ cap) :
    (if c then addCapped cap src st else st).1.length ≤ cap := by
  by_cases hc : c
  · rw [if_pos hc]
    exact addCapped_length_le _ _ _ h
  · rw [if_neg hc]
    exact h

theorem addCapped_prop (P : Movie → Prop) (cap : Nat) (src : List Movie)
    (st : List Movie × List Nat) (hst : ∀ x ∈ st.1, P x) (hsrc : ∀ x ∈ src, P x) :
    ∀ x ∈ (addCapped cap src st).1, P x := fun x hx =>
  (addCapped_subset cap src st x hx).elim (hst x) (hsrc x)

theorem prop_iteAdd (P : Movie → Prop) {c : Prop} [Decidable c] (cap : Nat)
    (src : List Movie) (st : List Movie × List Nat)
    (hst : ∀ x ∈ st.1, P x) (hsrc : ∀ x ∈ src, P x) :
    ∀ x ∈ (if c then addCapped cap src st else st).1, P x := by
  by_cases hc : c
  · rw [if_pos hc]
    exact addCapped_prop P cap src st hst hsrc
  · rw [if_neg hc]
    exact hst

theorem subset_iteAdd {c : Prop} [Decidable c] (cap : Nat) (src : List Movie)
    (st : List Movie × List Nat) :
    ∀ x ∈ (if c then addCapped cap src st else st).1, x ∈ st.1 ∨ x ∈ src := by
  by_cases hc : c
  · rw [if_pos hc]
    exact addCapped_subset cap src st
  · rw [if_neg hc]
    intro x hx
    exact Or.inl hx

theorem coldStage1_good (db : DB) (user : Option UserRow) (uid n : Nat) :
    GoodState
      (match user with
        | some u =>
          if u.genre_preferences.truthy then
            addCapped n (get_genre_based_recommendations db uid n) ([], [])
          else ([], [])
        | none => ([], [])) := by
  cases user with
  | some u => exact goodState_iteAdd _ _ _ goodState_nil
  | none => exact goodState_nil

theorem coldCompose_good (db : DB) (user : Option UserRow) (uid n : Nat) :
    GoodState (coldCompose db user uid n) := by
  simp only [coldCompose]
  exact goodState_iteAdd _ _ _ (goodState_iteAdd _ _ _ (coldStage1_good db user uid n))

theorem coldStage1_length (db : DB) (user : Option UserRow) (uid n : Nat) :
    (match user with
      | some u =>
        if u.genre_preferences.truthy then
          addCapped n (get_genre_based_recommendations db uid n) ([], [])
        else ([], [])
      | none => ([], [])).1.length ≤ n := by
  cases user with
  | some u => exact length_iteAdd _ _ _ (Nat.zero_le n)
  | none => exact Nat.zero_le n

theorem coldCompose_length (db : DB) (user : Option UserRow) (uid n : Nat) :
    (coldCompose db user uid n).1.length ≤ n := by
  simp only [coldCompose]
  exact length_iteAdd _ _ _ (length_iteAdd _ _ _ (coldStage1_length db user uid n))

theorem coldCompose_not_excluded (db : DB) (user : Option UserRow) (uid n : Nat)
    (h0 : uid ≠ 0) :
    ∀ x ∈ (coldCompose db user uid n).1, x.id ∉ get_excluded_movie_ids db uid := by
  have hnil : ∀ x : Movie, x ∈ ([] : List Movie) → x.id ∉ get_excluded_movie_ids db uid :=
    fun x hx => absurd hx (List.not_mem_nil x)
  have hs1 : ∀ x ∈ ((match user with
      | some u =>
        if u.genre_preferences.truthy then
          addCapped n (get_genre_based_recommendations db uid n) ([], [])
        else ([], [])
      | none => ([], []) : List Movie × List Nat)).1, x.id ∉ get_excluded_movie_ids db uid := by
    cases user with
    | some u =>
      exact prop_iteAdd _ _ _ _ hnil (get_genre_based_not_excluded db uid n h0)
    | none => exact hnil
  simp only [coldCompose]
  exact prop_iteAdd _ _ _ _
    (prop_iteAdd _ _ _ _ hs1 (get_demographic_not_excluded db uid _ h0))
    (get_popular_movies_not_excluded db _ uid h0)

theorem warmCompose_good (n : Nat) (svd item content : List Movie) :
    GoodState (warmCompose n svd item content) := by
  simp only [warmCompose]
  exact goodState_iteAdd _ _ _
    (addCapped_good _ _ _ (addCapped_good _ _ _ (addUncapped_good _ _ goodState_nil)))

theorem three_n_div_five_le (n : Nat) : 3 * n / 5 ≤ n := by
  calc 3 * n / 5 ≤ 3 * n / 3 := Nat.div_le_div_left (by omega) (by omega)
    _ = n := by omega

theorem warmCompose_stage1_length (n : Nat) (svd : List Movie) :
    (addUncapped (svd.take (hybridWeights n).1) ([], [])).1.length ≤ n := by
  refine le_trans (addUncapped_length_le_add _ _) ?_
  simp only [List.length_nil, Nat.zero_add, List.length_take, hybridWeights]
  exact le_trans (min_le_left _ _) (three_n_div_five_le n)

theorem warmCompose_length (n : Nat) (svd item content : List Movie) :
    (warmCompose n svd item content).1.length ≤ n := by
  simp only [warmCompose]
  exact length_iteAdd _ _ _
    (addCapped_length_le _ _ _
      (addCapped_length_le _ _ _ (warmCompose_stage1_length n svd)))

theorem warmCompose_subset (n : Nat) (svd item content : List Movie) :
    ∀ x ∈ (warmCompose n svd item content).1,
      x ∈ svd ∨ x ∈ item ∨ x ∈ content := by
  intro x hx
  have hstages : ∀ y ∈ (addCapped n (content.take (hybridWeights n).2.2)
      (addCapped n (item.take (hybridWeights n).2.1)
        (addUncapped (svd.take (hybridWeights n).1) ([], [])))).1,
      y ∈ svd ∨ y ∈ item ∨ y ∈ content := by
    intro y hy
    rcases addCapped_subset _ _ _ y hy with h3 | h4
    · rcases addCapped_subset _ _ _ y h3 with h5 | h6
      · rcases addUncapped_subset _ _ y h5 with h7 | h8
        · exact absurd h7 (List.not_mem_nil y)
        · exact Or.inl (List.mem_of_mem_take h8)
      · exact Or.inr (Or.inl (List.mem_of_mem_take h6))
    · exact Or.inr (Or.inr (List.mem_of_mem_take h4))
  simp only [warmCompose] at hx
  rcases subset_iteAdd _ _ _ x hx with h1 | h2
  · exact hstages x h1
  · have hm := (List.mem_filter.mp h2).1
    rcases List.mem_append.mp hm with h3 | h4
    · rcases List.mem_append.mp h3 with h5 | h6
      · exact Or.inl h5
      · exact Or.inr (Or.inl h6)
    · exact Or.inr (Or.inr h4)

/-- Shared tail of both hybrid branches: any permutation of a well-formed
candidate list, passed through the disliked-genre filter, keeps the length
bound, distinctness, and the low-rating exclusion. -/
theorem rerank_filter_bounds (db : DB) (uid n : Nat) (C R : List Movie)
    (hperm : R.Perm C) (hlen : C.length ≤ n)
    (hnodup : (C.map (·.id)).Nodup)
    (hexc : ∀ x ∈ C, x.id ∉ get_excluded_movie_ids db uid) :
    (filter_disliked_genres db R uid).length ≤ n
      ∧ ((filter_disliked_genres db R uid).map (·.id)).Nodup
      ∧ ∀ x ∈ filter_disliked_genres db R uid,
          x.id ∉ get_excluded_movie_ids db uid := by
  refine ⟨?_, ?_, ?_⟩
  · exact le_trans (filter_disliked_length_le db R uid) (hperm.length_eq ▸ hlen)
  · exact filter_disliked_nodup db R uid (nodup_map_of_perm hperm hnodup)
  · intro x hx
    exact hexc x (hperm.mem_iff.mp (filter_disliked_subset db R uid x hx))

theorem cold_tail_bounds (db : DB) (uid n : Nat) (uc : Bool) (C : List Movie)
    (ctx : Context) (hlen : C.length ≤ n) (hnodup : (C.map (·.id)).Nodup)
    (hexc : ∀ x ∈ C, x.id ∉ get_excluded_movie_ids db uid) :
    (filter_disliked_genres db
        (if (uc && decide (0 < C.length)) = true then apply_temporal_filtering C ctx
         else C) uid).length ≤ n
      ∧ ((filter_disliked_genres db
          (if (uc && decide (0 < C.length)) = true then apply_temporal_filtering C ctx
           else C) uid).map (·.id)).Nodup
      ∧ ∀ x ∈ filter_disliked_genres db
          (if (uc && decide (0 < C.length)) = true then apply_temporal_filtering C ctx
           else C) uid,
          x.id ∉ get_excluded_movie_ids db uid := by
  refine rerank_filter_bounds db uid n C _ ?_ hlen hnodup hexc
  split
  · exact apply_temporal_filtering_perm C ctx
  · exact List.Perm.refl C

theorem warm_tail_bounds (db : DB) (uid n : Nat) (uc : Bool) (C : List Movie)
    (ctx : Context) (hlen : C.length ≤ n) (hnodup : (C.map (·.id)).Nodup)
    (hexc : ∀ x ∈ C, x.id ∉ get_excluded_movie_ids db uid) :
    ((filter_disliked_genres db
        (if uc = true then
          apply_diversity_boost (apply_temporal_filtering C ctx) ctx
         else C) uid).take n).length ≤ n
      ∧ (((filter_disliked_genres db
          (if uc = true then
            apply_diversity_boost (apply_temporal_filtering C ctx) ctx
           else C) uid).take n).map (·.id)).Nodup
      ∧ ∀ x ∈ (filter_disliked_genres db
          (if uc = true then
            apply_diversity_boost (apply_temporal_filtering C ctx) ctx
           else C) uid).take n,
          x.id ∉ get_excluded_movie_ids db uid := by
  have hperm : (if uc = true then
      apply_diversity_boost (apply_temporal_filtering C ctx) ctx
      else C).Perm C := by
    split
    · exact (apply_diversity_boost_perm _ _).trans (apply_temporal_filtering_perm C ctx)
    · exact List.Perm.refl C
  have hb := rerank_filter_bounds db uid n C _ hperm hlen hnodup hexc
  refine ⟨?_, ?_, ?_⟩
  · exact List.length_take_le _ _
  · exact nodup_map_take _ _ n hb.2.1
  · intro x hx
    exact hb.2.2 x (List.mem_of_mem_take hx)

/-- **C1 (amended)**: for every user with a valid (nonzero) identifier and
every requested count, the primary recommendation operation returns at most
`count` movies, with pairwise-distinct identities, and never returns a movie
the user has rated at most 2.0.  Movies the user has already rated above
2.0, favorited, or watchlisted can still be returned — the genre-preference,
demographic and item-similarity generators exclude only the low-rated set
(see the counterexample). -/
theorem hybrid_output_bounds (fcz : Factorizer) (sim : Similarity)
    (st : RecState) (db : DB) (clock : Clock) (user_id n : Nat) (uc : Bool)
    (h0 : user_id ≠ 0) :
    (get_hybrid_recommendations fcz sim st db clock user_id n uc).length ≤ n
      ∧ ((get_hybrid_recommendations fcz sim st db clock user_id n uc).map
          (·.id)).Nodup
      ∧ ∀ x ∈ get_hybrid_recommendations fcz sim st db clock user_id n uc,
          x.id ∉ get_excluded_movie_ids db user_id := by
  simp only [get_hybrid_recommendations]
  split
  · exact cold_tail_bounds db user_id n uc _ _
      (coldCompose_length db _ user_id n)
      (coldCompose_good db _ user_id n).1
      (coldCompose_not_excluded db _ user_id n h0)
  · refine warm_tail_bounds db user_id n uc _ _
      (warmCompose_length n _ _ _)
      (warmCompose_good n _ _ _).1 ?_
    intro x hx
    rcases warmCompose_subset n _ _ _ x hx with h1 | h2 | h3
    · exact get_svd_not_excluded fcz sim st db user_id n h0 x h1
    · exact get_item_based_not_excluded sim db user_id n h0 x h2
    · exact get_content_based_not_excluded db user_id n h0 x h3

/-- A cold-start store: user 7 has exactly one interaction — a 5.0 rating of
the Action movie 1 — and a Action-liking preference profile. -/
def dbColdRated : DB :=
  { movies := [⟨1, .parsed ["Action"], 100, 8, 50, none⟩]
    users := [⟨7, none, none, .parsed [("Action", 1)]⟩]
    ratings := [⟨7, 1, 5, 100⟩]
    favorites := []
    watchlist := []
    model_update_logs := [] }

/-- **C1 (counterexample)**: user 7 is cold-start (one interaction) and has
rated movie 1 with 5.0 stars, yet the primary operation returns exactly that
movie — the genre-preference generator excludes only movies rated ≤ 2.0, so
an already-rated movie is recommended again, refuting the claim as stated. -/
theorem hybrid_returns_rated_movie :
    is_cold_start_user dbColdRated 7 = true
      ∧ (get_hybrid_recommendations (fun _ _ => ([], [])) (fun _ _ => 0) ⟨none⟩
          dbColdRated ⟨18, 2⟩ 7 5 true).map (·.id) = [1]
      ∧ dbColdRated.ratings.any (fun r =>
          r.user_id == 7 && r.movie_id == 1 && decide (2 < r.rating)) = true := by
  with_unfolding_all decide

theorem hybrid_output_bounds_witness :
    (get_hybrid_recommendations (fun _ _ => ([], [])) (fun _ _ => 0) ⟨none⟩
        dbColdRated ⟨18, 2⟩ 7 5 true).length ≤ 5 :=
  (hybrid_output_bounds (fun _ _ => ([], [])) (fun _ _ => 0) ⟨none⟩ dbColdRated
    ⟨18, 2⟩ 7 5 true (by decide)).1

/-- **C7**: in the warm composition without embeddings, the weight split of
the requested count is 60% / 25% / 15% — the latent-factor slice takes at
most `⌊0.6·n⌋` items, the item-based slice adds at most `⌊0.25·n⌋`, the
content slice at most the remainder `n - ⌊0.6·n⌋ - ⌊0.25·n⌋` — the composed
list is deduplicated by movie identity in that priority order, and the warm
branch of the primary operation returns at most `n` items. -/
theorem warm_weight_slicing_spec (fcz : Factorizer) (sim : Similarity)
    (st : RecState) (db : DB) (clock : Clock) (user_id n : Nat) (uc : Bool)
    (svd item content : List Movie) :
    (hybridWeights n).1 = 3 * n / 5
      ∧ (hybridWeights n).2.1 = n / 4
      ∧ (hybridWeights n).2.2 = n - 3 * n / 5 - n / 4
      ∧ (addUncapped (svd.take (hybridWeights n).1) ([], [])).1.length ≤ 3 * n / 5
      ∧ (∀ st0 : List Movie × List Nat,
          (addCapped n (item.take (hybridWeights n).2.1) st0).1.length
            ≤ st0.1.length + n / 4)
      ∧ (∀ st0 : List Movie × List Nat,
          (addCapped n (content.take (hybridWeights n).2.2) st0).1.length
            ≤ st0.1.length + (n - 3 * n / 5 - n / 4))
      ∧ ((warmCompose n svd item content).1.map (·.id)).Nodup
      ∧ (warmCompose n svd item content).1.length ≤ n
      ∧ (is_cold_start_user db user_id = false →
          (get_hybrid_recommendations fcz sim st db clock user_id n uc).length ≤ n) := by
  refine ⟨rfl, rfl, rfl, ?_, ?_, ?_, ?_, ?_, ?_⟩
  · refine le_trans (addUncapped_length_le_add _ _) ?_
    simp only [List.length_nil, Nat.zero_add, List.length_take, hybridWeights]
    exact min_le_left _ _
  · intro st0
    refine le_trans (addCapped_length_le_add _ _ _) ?_
    refine Nat.add_le_add_left ?_ _
    simp only [List.length_take, hybridWeights]
    exact min_le_left _ _
  · intro st0
    refine le_trans (addCapped_length_le_add _ _ _) ?_
    refine Nat.add_le_add_left ?_ _
    simp only [List.length_take, hybridWeights]
    exact min_le_left _ _
  · exact (warmCompose_good n svd item content).1
  · exact warmCompose_length n svd item content
  · intro h
    simp only [get_hybrid_recommendations, h, Bool.false_eq_true, if_false]
    exact List.length_take_le _ _

/-- A warm store: user 1 has exactly three favorites, reaching the
cold-start threshold. -/
def dbWarm : DB := ⟨[], [], [], [⟨1, 1⟩, ⟨1, 2⟩, ⟨1, 3⟩], [], []⟩

theorem warm_weight_slicing_spec_witness :
    is_cold_start_user dbWarm 1 = false
      ∧ (get_hybrid_recommendations (fun _ _ => ([], [])) (fun _ _ => 0) ⟨none⟩
          dbWarm ⟨18, 2⟩ 1 10 true).length ≤ 10 :=
  ⟨by with_unfolding_all decide,
    (warm_weight_slicing_spec (fun _ _ => ([], [])) (fun _ _ => 0) ⟨none⟩ dbWarm
      ⟨18, 2⟩ 1 10 true [] [] []).2.2.2.2.2.2.2.2 (by with_unfolding_all decide)⟩


end MovieRec
